import Mathlib

/-!
Verification of the blog-post revision state machine from
src/chapter17_oop_features_of_rust/src/lib.rs (module blog_post).

The Rust code keeps a `Post` with a `state : Option<Box<dyn State>>` and a
`content : String`.  The three unit structs implementing the `State` trait
(Draft, PendingReview, Published) are embedded as one inductive type; each
trait method becomes a match on that inductive, with one arm per impl.
The `Option` around the state is kept, so that the `unwrap` inside
`Post::content` can be reasoned about: `Post.visible_content` returns
`none` exactly where the Rust code would panic.
-/

namespace BlogPost

/-- The three concrete states implementing the `State` trait:
`Draft`, `PendingReview`, `Published`. -/
inductive State where
  | Draft
  | PendingReview
  | Published
deriving DecidableEq, Repr

/-- `request_review` of the `State` trait: `Draft` goes to `PendingReview`
(impl for Draft); `PendingReview` and `Published` return `self`. -/
def State.request_review : State → State
  | .Draft => .PendingReview
  | .PendingReview => .PendingReview
  | .Published => .Published

/-- `approve` of the `State` trait: `PendingReview` goes to `Published`
(impl for PendingReview); `Draft` and `Published` return `self`. -/
def State.approve : State → State
  | .Draft => .Draft
  | .PendingReview => .Published
  | .Published => .Published

/-- The `Post` struct: an optional boxed state and a content string. -/
structure Post where
  state : Option State
  content : String
deriving DecidableEq, Repr

/-- `content` of the `State` trait applied to a post: the default method
returns `""`; only the `Published` impl overrides it to return the post's
content field. -/
def State.content (s : State) (post : Post) : String :=
  match s with
  | .Published => post.content
  | _ => ""

/-- `Post::new`: a fresh post with state `Some(Draft)` and empty content. -/
def Post.new : Post :=
  { state := some State.Draft, content := "" }

/-- `Post::add_text`: pushes `text` onto the end of `self.content`. -/
def Post.add_text (p : Post) (text : String) : Post :=
  { p with content := p.content ++ text }

/-- `Post::content`: `self.state.as_ref().unwrap().content(&self)`.
The result is `none` exactly when the state is `None` and the `unwrap`
would panic.  Named `visible_content` after the spec because the Lean
field projection already takes the name `Post.content`. -/
def Post.visible_content (p : Post) : Option String :=
  match p.state with
  | some s => some (s.content p)
  | none => none

/-- `Post::request_review`: `if let Some(s) = self.state.take()` then the
state is replaced by `s.request_review()`; when the state is `None` the
branch is not taken and the post is left unchanged. -/
def Post.request_review (p : Post) : Post :=
  match p.state with
  | some s => { p with state := some s.request_review }
  | none => p

/-- `Post::approve`: same shape as `Post::request_review`, delegating to
`State::approve`. -/
def Post.approve (p : Post) : Post :=
  match p.state with
  | some s => { p with state := some s.approve }
  | none => p

/-- The public mutating operations on a post, used to form arbitrary call
sequences. -/
inductive Op where
  | addText (text : String)
  | requestReview
  | approve
deriving Repr

/-- Apply one public operation to a post. -/
def applyOp (p : Post) : Op → Post
  | .addText t => p.add_text t
  | .requestReview => p.request_review
  | .approve => p.approve

/-- Run a sequence of public operations starting from `Post::new`. -/
def run (ops : List Op) : Post :=
  ops.foldl applyOp Post.new

/-- Rank of a post's state along the lifecycle
Draft (0) → PendingReview (1) → Published (2); an absent state ranks 0. -/
def Post.stateRank (p : Post) : Nat :=
  match p.state with
  | some .Draft => 0
  | some .PendingReview => 1
  | some .Published => 2
  | none => 0

/-- Adding text never touches the state field. -/
theorem add_text_state (p : Post) (t : String) : (p.add_text t).state = p.state :=
  rfl

/-- A whole fold of `add_text` calls never touches the state field. -/
theorem foldl_add_text_state (ts : List String) (p : Post) :
    (ts.foldl Post.add_text p).state = p.state := by
  induction ts generalizing p with
  | nil => rfl
  | cons t ts ih => exact ih (p.add_text t)

/-- `visible_content` is determined by the state and the content field. -/
theorem visible_content_of_state (p : Post) (s : State) (h : p.state = some s) :
    p.visible_content = some (s.content p) := by
  simp [Post.visible_content, h]

/-- One public operation never lowers the state rank. -/
theorem applyOp_stateRank_le (p : Post) (op : Op) :
    p.stateRank ≤ (applyOp p op).stateRank := by
  cases op with
  | addText t =>
      simp [applyOp, Post.stateRank, Post.add_text]
  | requestReview =>
      rcases hp : p.state with _ | s
      · simp [applyOp, Post.request_review, hp]
      · cases s <;>
          simp [applyOp, Post.request_review, hp, Post.stateRank, State.request_review]
  | approve =>
      rcases hp : p.state with _ | s
      · simp [applyOp, Post.approve, hp]
      · cases s <;>
          simp [applyOp, Post.approve, hp, Post.stateRank, State.approve]

/-- One public operation keeps the state present when it was present. -/
theorem applyOp_state_isSome (p : Post) (op : Op) (h : p.state.isSome) :
    (applyOp p op).state.isSome := by
  rcases hp : p.state with _ | s
  · rw [hp] at h; cases h
  · cases op <;> simp [applyOp, Post.add_text, Post.request_review, Post.approve, hp]

/-- Claim C1: after any sequence of `add_text` calls, `visible_content`
returns the full accumulated content exactly in the `Published` state and
the empty string in the `Draft` and `PendingReview` states. -/
theorem c1_visible_content_gated (p : Post) (s : State) (ts : List String)
    (h : p.state = some s) :
    (ts.foldl Post.add_text p).visible_content
      = some (if s = State.Published then (ts.foldl Post.add_text p).content else "") := by
  have hst : (ts.foldl Post.add_text p).state = some s := by
    rw [foldl_add_text_state, h]
  rw [visible_content_of_state _ s hst]
  cases s <;> simp [State.content]

/-- Witness for C1 at a concrete draft post and a concrete text sequence. -/
theorem c1_visible_content_gated_witness :
    (["I ate ", "a salad"].foldl Post.add_text Post.new).visible_content
      = some (if State.Draft = State.Published
              then (["I ate ", "a salad"].foldl Post.add_text Post.new).content else "") :=
  c1_visible_content_gated Post.new State.Draft ["I ate ", "a salad"] rfl

/-- Claim C2: `Post::new` produces a post in state `Draft` with empty
content, and a run of zero public operations is exactly `Post::new`, so
every document starts in `Draft`. -/
theorem c2_new_draft_empty :
    Post.new.state = some State.Draft ∧ Post.new.content = "" ∧ run [] = Post.new :=
  ⟨rfl, rfl, rfl⟩

/-- Claim C3: `request_review` sends `Draft` to `PendingReview` leaving
content alone, and is the identity on whole posts in `PendingReview` or
`Published`. -/
theorem c3_request_review_transition (p : Post) :
    (p.state = some State.Draft →
        p.request_review = { p with state := some State.PendingReview })
    ∧ (p.state = some State.PendingReview → p.request_review = p)
    ∧ (p.state = some State.Published → p.request_review = p) := by
  refine ⟨fun h => ?_, fun h => ?_, fun h => ?_⟩ <;>
    · cases p
      cases h
      rfl

/-- Witness for C3: a fresh post moves to `PendingReview` and a second
`request_review` is the identity there. -/
theorem c3_request_review_transition_witness :
    (Post.new.request_review = { Post.new with state := some State.PendingReview })
    ∧ Post.new.request_review.request_review = Post.new.request_review :=
  ⟨(c3_request_review_transition Post.new).1 rfl,
    (c3_request_review_transition Post.new.request_review).2.1 rfl⟩

/-- Claim C4: `approve` sends `PendingReview` to `Published`; on `Draft` it
is the identity and the visible content stays empty (review cannot be
skipped); on `Published` it is the identity. -/
theorem c4_approve_transition (p : Post) :
    (p.state = some State.PendingReview →
        p.approve = { p with state := some State.Published })
    ∧ (p.state = some State.Draft →
        p.approve = p ∧ p.approve.visible_content = some "")
    ∧ (p.state = some State.Published → p.approve = p) := by
  refine ⟨fun h => ?_, fun h => ?_, fun h => ?_⟩
  · cases p; cases h; rfl
  · have hid : p.approve = p := by cases p; cases h; rfl
    refine ⟨hid, ?_⟩
    rw [hid, visible_content_of_state p State.Draft h]
    rfl
  · cases p; cases h; rfl

/-- Witness for C4 at a concrete draft post and a concrete pending post. -/
theorem c4_approve_transition_witness :
    (Post.new.approve = Post.new ∧ Post.new.approve.visible_content = some "")
    ∧ Post.new.request_review.approve
        = { Post.new.request_review with state := some State.Published } :=
  ⟨(c4_approve_transition Post.new).2.1 rfl,
    (c4_approve_transition Post.new.request_review).1 rfl⟩

/-- Claim C5: `add_text` appends the text to the content in every state
and never changes the state; in particular on a `Published` post the
appended text shows up in `visible_content`. -/
theorem c5_add_text_appends (p : Post) (t : String) :
    (p.add_text t).content = p.content ++ t
    ∧ (p.add_text t).state = p.state
    ∧ (p.state = some State.Published →
        (p.add_text t).visible_content = some (p.content ++ t)) := by
  refine ⟨rfl, rfl, fun h => ?_⟩
  have hst : (p.add_text t).state = some State.Published := by
    rw [add_text_state, h]
  rw [visible_content_of_state _ State.Published hst]
  rfl

/-- Witness for C5: text appended to a concrete published post is exposed
by `visible_content`. -/
theorem c5_add_text_appends_witness :
    (Post.new.request_review.approve.add_text "late edit").visible_content
      = some (Post.new.request_review.approve.content ++ "late edit") :=
  (c5_add_text_appends Post.new.request_review.approve "late edit").2.2 rfl

/-- Claim C6: under any sequence of public operations the state rank along
Draft → PendingReview → Published never decreases, so a document never
returns to an earlier state. -/
theorem c6_state_monotone (p : Post) (ops : List Op) :
    p.stateRank ≤ (ops.foldl applyOp p).stateRank := by
  induction ops generalizing p with
  | nil => exact Nat.le_refl _
  | cons op ops ih =>
      exact Nat.le_trans (applyOp_stateRank_le p op) (ih (applyOp p op))

/-- Claim C7: after any sequence of public operations starting from
`Post::new` the state option is still `Some`, so the `unwrap` inside
`Post::content` never panics and `visible_content` always yields a value. -/
theorem c7_operations_total (ops : List Op) :
    (run ops).state.isSome ∧ (run ops).visible_content.isSome := by
  have hsome : ∀ (l : List Op) (p : Post),
      p.state.isSome → (l.foldl applyOp p).state.isSome := by
    intro l
    induction l with
    | nil => exact fun p h => h
    | cons op l ih => exact fun p h => ih (applyOp p op) (applyOp_state_isSome p op h)
  have h1 : (run ops).state.isSome := hsome ops Post.new rfl
  refine ⟨h1, ?_⟩
  rcases hst : (run ops).state with _ | s
  · rw [hst] at h1; cases h1
  · rw [visible_content_of_state _ s hst]; rfl

/-- Claim C8: `request_review` and `approve` are idempotent on whole
posts, landing in `PendingReview` from Draft/PendingReview and in
`Published` from PendingReview/Published respectively. -/
theorem c8_transitions_idempotent (p : Post) :
    p.request_review.request_review = p.request_review
    ∧ p.approve.approve = p.approve
    ∧ ((p.state = some State.Draft ∨ p.state = some State.PendingReview) →
        p.request_review.state = some State.PendingReview)
    ∧ ((p.state = some State.PendingReview ∨ p.state = some State.Published) →
        p.approve.state = some State.Published) := by
  refine ⟨?_, ?_, fun h => ?_, fun h => ?_⟩
  · rcases hp : p.state with _ | s
    · simp [Post.request_review, hp]
    · cases s <;> simp [Post.request_review, hp, State.request_review]
  · rcases hp : p.state with _ | s
    · simp [Post.approve, hp]
    · cases s <;> simp [Post.approve, hp, State.approve]
  · rcases h with h | h <;> simp [Post.request_review, h, State.request_review]
  · rcases h with h | h <;> simp [Post.approve, h, State.approve]

/-- Witness for C8 at a concrete draft post and a concrete pending post. -/
theorem c8_transitions_idempotent_witness :
    Post.new.request_review.state = some State.PendingReview
    ∧ Post.new.request_review.approve.state = some State.Published :=
  ⟨(c8_transitions_idempotent Post.new).2.2.1 (Or.inl rfl),
    (c8_transitions_idempotent Post.new.request_review).2.2.2 (Or.inl rfl)⟩

/-- Claim C9: the transition operations leave the content field untouched,
and every public operation only ever extends the content (append-only). -/
theorem c9_content_frame (p : Post) :
    p.request_review.content = p.content
    ∧ p.approve.content = p.content
    ∧ ∀ op : Op, ∃ t : String, (applyOp p op).content = p.content ++ t := by
  have hrr : p.request_review.content = p.content := by
    rcases hp : p.state with _ | s <;> simp [Post.request_review, hp]
  have hap : p.approve.content = p.content := by
    rcases hp : p.state with _ | s <;> simp [Post.approve, hp]
  refine ⟨hrr, hap, fun op => ?_⟩
  cases op with
  | addText t => exact ⟨t, rfl⟩
  | requestReview => exact ⟨"", by simp [applyOp, hrr]⟩
  | approve => exact ⟨"", by simp [applyOp, hap]⟩

/-- Claim C10: `add_text` is a monoid homomorphism from strings under
concatenation to post transformers: appending `s` then `t` equals
appending `s ++ t` once, and appending the empty string is the identity. -/
theorem c10_add_text_homomorphism (p : Post) (s t : String) :
    (p.add_text s).add_text t = p.add_text (s ++ t)
    ∧ p.add_text "" = p := by
  cases p
  constructor
  · simp [Post.add_text, String.append_assoc]
  · simp [Post.add_text]

end BlogPost
